import Mathlib

/-!
Verification of the toolhive-registry compilation pipeline.

The Go sources are embedded shallowly:

* Go strings are modeled as `List Char` (`GoStr`); Go's byte-wise string
  functions `strings.Contains`, `strings.Count`, `strings.SplitN(s, sep, 2)`
  on single-character separators become `gContains`, `gCount`, `splitFirst`.
* Go slices that the code distinguishes between nil and empty are modeled as
  `Option (List _)` (`none` = nil slice); `goList` is the coercion used when
  the code only ranges over or takes `len` of a slice (identical for nil and
  empty).
* Fallible Go functions returning `(..., error)` become `Except GoStr _`.
-/

deriving instance DecidableEq for Except

/-- Go string, byte/char list view. -/
abbrev GoStr := List Char

/-- strings.Contains for a single-character substring. -/
def gContains (s : GoStr) (c : Char) : Bool := s.contains c

/-- strings.Count for a single-character substring. -/
def gCount (s : GoStr) (c : Char) : Nat := s.count c

/-- Go slice to list: `none` models a nil slice, which ranges/lens like `[]`. -/
def goList {α : Type} (o : Option (List α)) : List α := o.getD []

/-- strings.SplitN(s, sep, 2) for a single-character separator: the part
before the first occurrence and the part after it.  When the separator does
not occur the first component is the whole string and the second is empty,
which agrees with Go's `parts[0]` in every use below (the callers either
guard on `strings.Contains` or only use the first component). -/
def splitFirst : GoStr → Char → GoStr × GoStr
  | [], _ => ([], [])
  | a :: as, c =>
    if a = c then ([], as)
    else
      let r := splitFirst as c
      (a :: r.1, r.2)

/-- `splitRegistryAndName` from pkg/registry/official.go: splits an image
path into registry base URL and identifier. -/
def splitRegistryAndName (image : GoStr) : GoStr × GoStr :=
  -- No slash = Docker Hub image
  if gContains image '/' = false then ("https://docker.io".data, image)
  else
    -- Has slash - check if first part looks like registry
    let parts := splitFirst image '/'
    let firstPart := parts.1
    -- If first part has dot, assume it is a registry hostname
    if gContains firstPart '.' = true then ("https://".data ++ firstPart, parts.2)
    else ("https://docker.io".data, image)

/-- Body of `parseImageReference` after the registry-port check (the digest,
tag and default-latest cases, in source order). -/
def parseCore (image : GoStr) : Except GoStr (GoStr × GoStr × GoStr) :=
  if gContains image '@' = true then
    -- Handle digest (@sha256:...)
    let parts := splitFirst image '@'
    let rn := splitRegistryAndName parts.1
    .ok (rn.1, rn.2, parts.2)
  else if gContains image ':' = true then
    -- Handle tag (:tag)
    let parts := splitFirst image ':'
    let rn := splitRegistryAndName parts.1
    .ok (rn.1, rn.2, parts.2)
  else
    -- No tag or digest - default to latest
    let rn := splitRegistryAndName image
    .ok (rn.1, rn.2, "latest".data)

/-- `parseImageReference` from pkg/registry/official.go: parses a container
image reference into (registryBaseURL, identifier, version).  The leading
check rejects a `registry:port` first segment, but only fires when the whole
reference holds more than one colon. -/
def parseImageReference (image : GoStr) : Except GoStr (GoStr × GoStr × GoStr) :=
  if gContains image ':' = true ∧ 1 < gCount image ':' then
    -- Multiple colons might indicate registry:port/image:tag
    if gContains (splitFirst image '/').1 ':' = true then
      -- First part has colon, likely registry:port
      .error ("registry with port not supported: ".data ++ (splitFirst image '/').1)
    else parseCore image
  else parseCore image

example : parseImageReference "docker.io/mcp/git:latest".data =
    .ok ("https://docker.io".data, "mcp/git".data, "latest".data) := by decide

example : parseImageReference "mcp/git".data =
    .ok ("https://docker.io".data, "mcp/git".data, "latest".data) := by decide

example : (parseImageReference "localhost:5000/img:v1".data).isOk = false := by decide

example : parseImageReference "localhost:5000/img".data =
    .ok ("https://docker.io".data, "localhost".data, "5000/img".data) := by decide

/-- C1: the claim says every image reference whose registry segment carries a
`host:port` specifier is rejected with the unsupported-reference error, even
when the reference has no additional tag or digest colon.  The code only runs
its port check when the whole reference holds more than one colon, so
`localhost:5000/img` is not rejected: it parses "successfully", mis-reading
`localhost` as a Docker Hub image name and `5000/img` as its tag, contrary to
the function's own contract ("Returns error if registry has a port"). -/
theorem portRegistrySilentlyMisparsed :
    parseImageReference "localhost:5000/img".data =
      .ok ("https://docker.io".data, "localhost".data, "5000/img".data) ∧
    (parseImageReference "localhost:5000/img".data).isOk = true := by
  exact ⟨by decide, by decide⟩

/-- Helper: a successful parse comes from the digest/tag/latest body, the
port check never produced it. -/
theorem parseImageReference_ok_to_core (image : GoStr)
    {t : GoStr × GoStr × GoStr}
    (h : parseImageReference image = .ok t) : parseCore image = .ok t := by
  unfold parseImageReference at h
  split at h
  · split at h
    · exact absurd h (by simp)
    · exact h
  · exact h

/-- C4: on every successful parse, the version component is the digest (the
portion after the first `@`) when the reference holds `@`, with registry and
identifier derived from the portion before `@`; else the tag (the portion
after the first `:`) when the reference holds `:`; else the literal
`latest`. -/
theorem parsedVersionComponents (image reg ident ver : GoStr)
    (h : parseImageReference image = .ok (reg, ident, ver)) :
    (gContains image '@' = true →
       ver = (splitFirst image '@').2 ∧
       (reg, ident) = splitRegistryAndName (splitFirst image '@').1) ∧
    (gContains image '@' = false → gContains image ':' = true →
       ver = (splitFirst image ':').2 ∧
       (reg, ident) = splitRegistryAndName (splitFirst image ':').1) ∧
    (gContains image '@' = false → gContains image ':' = false →
       ver = "latest".data) := by
  have h' := parseImageReference_ok_to_core image h
  unfold parseCore at h'
  refine ⟨fun hAt => ?_, fun hAt hCol => ?_, fun hAt hCol => ?_⟩
  · simp only [hAt, if_pos] at h'
    simp only [Except.ok.injEq, Prod.mk.injEq] at h'
    exact ⟨h'.2.2.symm, by rw [← h'.1, ← h'.2.1]⟩
  · simp only [hAt, hCol, Bool.false_eq_true, if_false, if_pos] at h'
    simp only [Except.ok.injEq, Prod.mk.injEq] at h'
    exact ⟨h'.2.2.symm, by rw [← h'.1, ← h'.2.1]⟩
  · simp only [hAt, hCol, Bool.false_eq_true, if_false] at h'
    simp only [Except.ok.injEq, Prod.mk.injEq] at h'
    exact h'.2.2.symm

/-- C4 witness: the theorem applied to a concrete digest reference. -/
theorem parsedVersionComponents_witness :
    parseImageReference "mcp/git@sha256:abc".data =
      .ok ("https://docker.io".data, "mcp/git".data, "sha256:abc".data) ∧
    ("sha256:abc".data = (splitFirst "mcp/git@sha256:abc".data '@').2 ∧
     ("https://docker.io".data, "mcp/git".data) =
       splitRegistryAndName (splitFirst "mcp/git@sha256:abc".data '@').1) := by
  refine ⟨by decide, ?_⟩
  exact (parsedVersionComponents "mcp/git@sha256:abc".data
    "https://docker.io".data "mcp/git".data "sha256:abc".data (by decide)).1 (by decide)

/-! ## Go string ordering and sort.Strings

`goStrLe` is Go's byte-wise string comparison (`a <= b`); `sortStrings`
models `sort.Strings`.  On duplicate-free key sets every correct sort yields
the same output list, so the choice of algorithm is immaterial; insertion
sort is used because it evaluates by kernel reduction. -/

/-- Go string comparison `a <= b` (lexicographic on code points, which for
UTF-8 encoded strings agrees with Go's byte-wise comparison). -/
def goStrLe : GoStr → GoStr → Bool
  | [], _ => true
  | _ :: _, [] => false
  | a :: as, b :: bs =>
    if a.toNat < b.toNat then true
    else if b.toNat < a.toNat then false
    else goStrLe as bs

theorem char_toNat_inj {a b : Char} (h : a.toNat = b.toNat) : a = b :=
  Char.ext (UInt32.ext h)

theorem goStrLe_total : ∀ (a b : GoStr), goStrLe a b = true ∨ goStrLe b a = true
  | [], _ => .inl rfl
  | _ :: _, [] => .inr rfl
  | x :: xs, y :: ys => by
    rcases Nat.lt_trichotomy x.toNat y.toNat with h | h | h
    · left; simp [goStrLe, h]
    · have h1 : ¬ x.toNat < y.toNat := by omega
      have h2 : ¬ y.toNat < x.toNat := by omega
      rcases goStrLe_total xs ys with ih | ih
      · left; simp [goStrLe, h1, h2, ih]
      · right; simp [goStrLe, h1, h2, ih]
    · right; simp [goStrLe, h]

theorem goStrLe_trans :
    ∀ {a b c : GoStr}, goStrLe a b = true → goStrLe b c = true → goStrLe a c = true
  | [], _, _, _, _ => rfl
  | _ :: _, [], _, h1, _ => by simp [goStrLe] at h1
  | _ :: _, _ :: _, [], _, h2 => by simp [goStrLe] at h2
  | x :: xs, y :: ys, z :: zs, h1, h2 => by
    simp only [goStrLe] at h1 h2 ⊢
    by_cases hxy : x.toNat < y.toNat
    · by_cases hyz : y.toNat < z.toNat
      · have hxz : x.toNat < z.toNat := by omega
        rw [if_pos hxz]
      · by_cases hzy : z.toNat < y.toNat
        · rw [if_neg hyz, if_pos hzy] at h2
          exact absurd h2 (by simp)
        · have hxz : x.toNat < z.toNat := by omega
          rw [if_pos hxz]
    · by_cases hyx : y.toNat < x.toNat
      · rw [if_neg hxy, if_pos hyx] at h1
        exact absurd h1 (by simp)
      · rw [if_neg hxy, if_neg hyx] at h1
        by_cases hyz : y.toNat < z.toNat
        · have hxz : x.toNat < z.toNat := by omega
          rw [if_pos hxz]
        · by_cases hzy : z.toNat < y.toNat
          · rw [if_neg hyz, if_pos hzy] at h2
            exact absurd h2 (by simp)
          · rw [if_neg hyz, if_neg hzy] at h2
            have hxz : ¬ x.toNat < z.toNat := by omega
            have hzx : ¬ z.toNat < x.toNat := by omega
            rw [if_neg hxz, if_neg hzx]
            exact goStrLe_trans h1 h2

theorem goStrLe_antisymm :
    ∀ {a b : GoStr}, goStrLe a b = true → goStrLe b a = true → a = b
  | [], [], _, _ => rfl
  | [], _ :: _, _, h2 => by simp [goStrLe] at h2
  | _ :: _, [], h1, _ => by simp [goStrLe] at h1
  | x :: xs, y :: ys, h1, h2 => by
    simp only [goStrLe] at h1 h2
    by_cases hxy : x.toNat < y.toNat
    · rw [if_neg (by omega : ¬ y.toNat < x.toNat), if_pos hxy] at h2
      exact absurd h2 (by simp)
    · by_cases hyx : y.toNat < x.toNat
      · rw [if_neg hxy, if_pos hyx] at h1
        exact absurd h1 (by simp)
      · rw [if_neg hxy, if_neg hyx] at h1
        rw [if_neg hyx, if_neg hxy] at h2
        rw [char_toNat_inj (by omega : x.toNat = y.toNat),
          goStrLe_antisymm h1 h2]

/-- Insertion of one name into a sorted list. -/
def insertSorted (x : GoStr) : List GoStr → List GoStr
  | [] => [x]
  | y :: ys => if goStrLe x y then x :: y :: ys else y :: insertSorted x ys

/-- sort.Strings: ascending byte-wise order. -/
def sortStrings : List GoStr → List GoStr
  | [] => []
  | x :: xs => insertSorted x (sortStrings xs)

/-- The ascending-order relation used throughout. -/
def strAsc (a b : GoStr) : Prop := goStrLe a b = true

instance : IsAntisymm GoStr strAsc := ⟨fun _ _ => goStrLe_antisymm⟩

theorem insertSorted_perm (x : GoStr) (l : List GoStr) :
    List.Perm (insertSorted x l) (x :: l) := by
  induction l with
  | nil => exact List.Perm.refl _
  | cons y ys ih =>
    unfold insertSorted
    by_cases hxy : goStrLe x y = true
    · rw [if_pos hxy]
    · rw [if_neg hxy]
      exact (ih.cons y).trans (List.Perm.swap x y ys)

theorem sortStrings_perm (l : List GoStr) : List.Perm (sortStrings l) l := by
  induction l with
  | nil => exact List.Perm.refl _
  | cons x xs ih => exact (insertSorted_perm x (sortStrings xs)).trans (ih.cons x)

theorem insertSorted_pairwise {l : List GoStr} (x : GoStr)
    (h : l.Pairwise strAsc) : (insertSorted x l).Pairwise strAsc := by
  induction l with
  | nil => simp [insertSorted, strAsc]
  | cons y ys ih =>
    rw [List.pairwise_cons] at h
    obtain ⟨hy, hys⟩ := h
    unfold insertSorted
    by_cases hxy : goStrLe x y = true
    · rw [if_pos hxy, List.pairwise_cons]
      refine ⟨?_, List.pairwise_cons.mpr ⟨hy, hys⟩⟩
      intro b hb
      rcases List.mem_cons.mp hb with hb | hb
      · subst hb; exact hxy
      · exact goStrLe_trans hxy (hy b hb)
    · rw [if_neg hxy, List.pairwise_cons]
      refine ⟨?_, ih hys⟩
      intro b hb
      rcases List.mem_cons.mp ((insertSorted_perm x ys).mem_iff.mp hb) with hb | hb
      · rw [hb]
        rcases goStrLe_total x y with hxy2 | hyx
        · exact absurd hxy2 hxy
        · exact hyx
      · exact hy b hb

theorem sortStrings_pairwise (l : List GoStr) :
    (sortStrings l).Pairwise strAsc := by
  induction l with
  | nil => exact List.Pairwise.nil
  | cons x xs ih => exact insertSorted_pairwise x ih

/-- Permuted inputs sort to the same list: the emission order is independent
of discovery order. -/
theorem sortStrings_eq_of_perm {l1 l2 : List GoStr} (h : List.Perm l1 l2) :
    sortStrings l1 = sortStrings l2 :=
  List.eq_of_perm_of_sorted
    ((sortStrings_perm l1).trans (h.trans (sortStrings_perm l2).symm))
    (sortStrings_pairwise l1) (sortStrings_pairwise l2)

/-! ## Data model

The entry types.  `ImageMetadata` and `RemoteServerMetadata` come from the
external `toolhive/pkg/registry` module; the fields below are the ones this
repository reads or writes.  Fields holding Go pointers to structures become
`Option`; slice fields whose nil/empty distinction the code observes become
`Option (List _)`.  The opaque pass-through payloads (`Metadata`,
`Provenance`, custom metadata) are modeled as uninterpreted `GoStr` blobs:
the code never inspects them, only copies them. -/

/-- toolhive EnvVar: one environment-variable declaration. -/
structure EnvVar where
  name : GoStr
  description : GoStr
  required : Bool
  secret : Bool
  default : GoStr
deriving DecidableEq

/-- toolhive Header: one header declaration of a remote server. -/
structure Header where
  name : GoStr
  description : GoStr
  required : Bool
  secret : Bool
  default : GoStr
  choices : Option (List GoStr)
deriving DecidableEq

/-- Usage example attached to an entry (pkg/types). -/
structure Example where
  name : GoStr
  description : GoStr
  sample : GoStr
deriving DecidableEq

/-- toolhive OAuthConfig, expanded form. -/
structure OAuthConfig where
  issuer : GoStr
  authorizeURL : GoStr
  tokenURL : GoStr
  clientID : GoStr
  scopes : Option (List GoStr)
  usePKCE : Bool
  oauthParams : Option (List (GoStr × GoStr))
  callbackPort : Int
deriving DecidableEq

/-- permissions.OutboundNetworkPermissions: the object behind
`Permissions.Network.Outbound`. -/
structure OutboundNetworkPermissions where
  insecureAllowAll : Bool
  allowHost : Option (List GoStr)
  allowPort : Option (List Int)
deriving DecidableEq

/-- permissions.NetworkPermissions: the object behind `Permissions.Network`. -/
structure NetworkPermissions where
  outbound : Option OutboundNetworkPermissions
deriving DecidableEq

/-- permissions.Profile: the object behind the entry's `Permissions` pointer.
The whole value is the state of the pointed-to object tree, which the image
metadata of an entry shares with every shallow copy of that metadata. -/
structure Permissions where
  read : Option (List GoStr)
  write : Option (List GoStr)
  network : Option NetworkPermissions
deriving DecidableEq

/-- toolhive ImageMetadata (the image-variant payload). -/
structure ImageMetadata where
  name : GoStr
  description : GoStr
  transport : GoStr
  tier : GoStr
  status : GoStr
  tools : Option (List GoStr)
  tags : Option (List GoStr)
  image : GoStr
  envVars : Option (List EnvVar)
  args : Option (List GoStr)
  repositoryURL : GoStr
  permissions : Option Permissions
  provenance : Option GoStr
  metadata : Option GoStr
deriving DecidableEq

/-- toolhive RemoteServerMetadata (the remote-variant payload). -/
structure RemoteServerMetadata where
  name : GoStr
  description : GoStr
  transport : GoStr
  tier : GoStr
  status : GoStr
  tools : Option (List GoStr)
  tags : Option (List GoStr)
  url : GoStr
  repositoryURL : GoStr
  headers : Option (List Header)
  oauthConfig : Option OAuthConfig
  envVars : Option (List EnvVar)
  customMetadata : Option GoStr
  metadata : Option GoStr
deriving DecidableEq

/-- pkg/types RegistryEntry: the unified descriptor, embedding at most one of
the two variant payloads (pointers, hence `Option`). -/
structure RegistryEntry where
  imageMetadata : Option ImageMetadata
  remoteServerMetadata : Option RemoteServerMetadata
  examples : List Example
  license : GoStr
deriving DecidableEq

/-- RegistryEntry.IsImage: an image server has a non-empty Image field. -/
def RegistryEntry.IsImage (r : RegistryEntry) : Bool :=
  match r.imageMetadata with
  | some m => !m.image.isEmpty
  | none => false

/-- RegistryEntry.IsRemote: a remote server has a non-empty URL field. -/
def RegistryEntry.IsRemote (r : RegistryEntry) : Bool :=
  match r.remoteServerMetadata with
  | some m => !m.url.isEmpty
  | none => false

/-- The `registry.ServerMetadata` interface value picked by
`GetServerMetadata`: image payload first, else remote payload, else none. -/
inductive ServerMeta where
  | img (m : ImageMetadata)
  | rem (m : RemoteServerMetadata)
deriving DecidableEq

/-- RegistryEntry.GetServerMetadata. -/
def RegistryEntry.getServerMetadata (r : RegistryEntry) : Option ServerMeta :=
  if r.IsImage then r.imageMetadata.map ServerMeta.img
  else if r.IsRemote then r.remoteServerMetadata.map ServerMeta.rem
  else none

/-- RegistryEntry.GetDescription. -/
def RegistryEntry.getDescription (r : RegistryEntry) : GoStr :=
  match r.getServerMetadata with
  | some (.img m) => m.description
  | some (.rem m) => m.description
  | none => []

/-- RegistryEntry.GetTransport. -/
def RegistryEntry.getTransport (r : RegistryEntry) : GoStr :=
  match r.getServerMetadata with
  | some (.img m) => m.transport
  | some (.rem m) => m.transport
  | none => []

/-- RegistryEntry.GetTier. -/
def RegistryEntry.getTier (r : RegistryEntry) : GoStr :=
  match r.getServerMetadata with
  | some (.img m) => m.tier
  | some (.rem m) => m.tier
  | none => []

/-- RegistryEntry.GetStatus. -/
def RegistryEntry.getStatus (r : RegistryEntry) : GoStr :=
  match r.getServerMetadata with
  | some (.img m) => m.status
  | some (.rem m) => m.status
  | none => []

/-- RegistryEntry.GetTools (a nil tools slice behaves as an empty list). -/
def RegistryEntry.getTools (r : RegistryEntry) : List GoStr :=
  match r.getServerMetadata with
  | some (.img m) => goList m.tools
  | some (.rem m) => goList m.tools
  | none => []

/-! ## Invocation command builder (pkg/toolhive/builder.go) -/

/-- CommandBuilder: accumulates the argument list. -/
structure CommandBuilder where
  args : List GoStr
deriving DecidableEq

/-- NewCommandBuilder. -/
def NewCommandBuilder (command : GoStr) : CommandBuilder := ⟨[command]⟩

/-- CommandBuilder.AddFlag: appends `flag value` unless the value is empty. -/
def CommandBuilder.AddFlag (b : CommandBuilder) (flag value : GoStr) : CommandBuilder :=
  if value ≠ [] then ⟨b.args ++ [flag, value]⟩ else b

/-- CommandBuilder.AddEnvVar: appends `-e name=value` unless the value is
empty. -/
def CommandBuilder.AddEnvVar (b : CommandBuilder) (name value : GoStr) : CommandBuilder :=
  if value ≠ [] then ⟨b.args ++ ["-e".data, name ++ "=".data ++ value]⟩ else b

/-- CommandBuilder.AddPositional: always appends. -/
def CommandBuilder.AddPositional (b : CommandBuilder) (value : GoStr) : CommandBuilder :=
  ⟨b.args ++ [value]⟩

/-- CommandBuilder.Build. -/
def CommandBuilder.BuildArgs (b : CommandBuilder) : List GoStr := b.args

/-- One iteration of the static-args loop of BuildRunCommand: append the
argument unless it is empty. -/
def positionalStep (b : CommandBuilder) (a : GoStr) : CommandBuilder :=
  if a ≠ [] then b.AddPositional a else b

/-- One iteration of the env-var loop of BuildRunCommand: explicit default
first, else placeholder when required, else placeholder when secret, else
nothing. -/
def processEnvVarStep (b : CommandBuilder) (v : EnvVar) : CommandBuilder :=
  if v.default ≠ [] then b.AddEnvVar v.name v.default
  else if v.required then b.AddEnvVar v.name "placeholder".data
  else if v.secret then b.AddEnvVar v.name "placeholder".data
  else b

/-- BuildRunCommand from pkg/toolhive/builder.go: the `thv run` argument
list for one entry, a temporary instance name and a resolved image. -/
def BuildRunCommand (spec : RegistryEntry) (tempName image : GoStr) : List GoStr :=
  let b := NewCommandBuilder "run".data
  let b := b.AddFlag "--name".data tempName
  let b : CommandBuilder :=
    match spec.imageMetadata with
    | some m =>
      let b := b.AddFlag "--transport".data m.transport
      let b := (goList m.envVars).foldl processEnvVarStep b
      match m.permissions with
      | some p =>
        match p.network with
        | some _ => b.AddFlag "--permission-profile".data "network".data
        | none => b
      | none => b
    | none => b
  let b := b.AddPositional image
  let b : CommandBuilder :=
    match spec.imageMetadata with
    | some m =>
      if 0 < (goList m.args).length then
        (goList m.args).foldl positionalStep (b.AddPositional "--".data)
      else b
    | none => b
  b.BuildArgs

/-- Value injected for one declared environment variable, as the spec words
it: a non-empty authored default wins; else the fixed placeholder when the
variable is required; else the same placeholder when it is secret; else
nothing is injected. -/
def specInjectedValue (v : EnvVar) : Option GoStr :=
  if v.default ≠ [] then some v.default
  else if v.required then some "placeholder".data
  else if v.secret then some "placeholder".data
  else none

/-- The `-e` arguments one declaration contributes to the run command. -/
def envContribution (v : EnvVar) : List GoStr :=
  match specInjectedValue v with
  | some val => ["-e".data, v.name ++ "=".data ++ val]
  | none => []

/-- The two arguments a non-empty-valued flag contributes. -/
def flagArgs (flag value : GoStr) : List GoStr :=
  if value ≠ [] then [flag, value] else []

/-- The permission-profile flag contributed when the entry declares network
permissions. -/
def permFlagArgs (m : ImageMetadata) : List GoStr :=
  match m.permissions with
  | some p =>
    match p.network with
    | some _ => ["--permission-profile".data, "network".data]
    | none => []
  | none => []

/-- The image-variant middle section of the run command: transport flag,
environment variables, permission profile. -/
def runMiddle (spec : RegistryEntry) : List GoStr :=
  match spec.imageMetadata with
  | some m =>
    flagArgs "--transport".data m.transport ++
      (goList m.envVars).flatMap envContribution ++ permFlagArgs m
  | none => []

/-- The trailing section of the run command: the `--` separator followed by
the declared static arguments, skipping empty ones. -/
def runArgsSection (spec : RegistryEntry) : List GoStr :=
  match spec.imageMetadata with
  | some m =>
    if 0 < (goList m.args).length then
      "--".data :: (goList m.args).flatMap (fun a => if a ≠ [] then [a] else [])
    else []
  | none => []

theorem addFlag_args (b : CommandBuilder) (flag value : GoStr) :
    (b.AddFlag flag value).args = b.args ++ flagArgs flag value := by
  unfold CommandBuilder.AddFlag flagArgs
  split <;> simp

theorem addEnvVar_args (b : CommandBuilder) (name value : GoStr) (h : value ≠ []) :
    (b.AddEnvVar name value).args = b.args ++ ["-e".data, name ++ "=".data ++ value] := by
  unfold CommandBuilder.AddEnvVar
  simp [h]

theorem processEnvVarStep_args (b : CommandBuilder) (v : EnvVar) :
    (processEnvVarStep b v).args = b.args ++ envContribution v := by
  unfold processEnvVarStep envContribution specInjectedValue
  by_cases hd : v.default = []
  · by_cases hr : v.required
    · simp [hd, hr, addEnvVar_args _ _ _ (by decide : ("placeholder".data : GoStr) ≠ [])]
    · by_cases hs : v.secret
      · simp [hd, hr, hs,
          addEnvVar_args _ _ _ (by decide : ("placeholder".data : GoStr) ≠ [])]
      · simp [hd, hr, hs]
  · simp [hd, addEnvVar_args _ _ _ hd]

theorem foldl_processEnvVarStep_args (l : List EnvVar) (b : CommandBuilder) :
    (l.foldl processEnvVarStep b).args = b.args ++ l.flatMap envContribution := by
  induction l generalizing b with
  | nil => simp
  | cons v vs ih => simp [ih, processEnvVarStep_args]

theorem positionalStep_args (b : CommandBuilder) (a : GoStr) :
    (positionalStep b a).args = b.args ++ (if a ≠ [] then [a] else []) := by
  unfold positionalStep CommandBuilder.AddPositional
  split <;> simp

theorem foldl_positional_args (l : List GoStr) (b : CommandBuilder) :
    (l.foldl positionalStep b).args =
      b.args ++ l.flatMap (fun a => if a ≠ [] then [a] else []) := by
  induction l generalizing b with
  | nil => simp
  | cons a as ih =>
    rw [List.foldl_cons, ih, positionalStep_args]
    by_cases ha : a = [] <;> simp [ha]

/-- Shared decomposition of the builder chain in BuildRunCommand into plain
list concatenation. -/
theorem buildRunCommand_decomp (spec : RegistryEntry) (tempName image : GoStr) :
    BuildRunCommand spec tempName image =
      ["run".data] ++ flagArgs "--name".data tempName ++
        runMiddle spec ++ [image] ++ runArgsSection spec := by
  unfold BuildRunCommand runMiddle runArgsSection
  match hm : spec.imageMetadata with
  | none =>
    simp [NewCommandBuilder, CommandBuilder.BuildArgs, CommandBuilder.AddPositional,
      addFlag_args]
  | some m =>
    match hp : m.permissions with
    | none =>
      by_cases hargs : 0 < (goList m.args).length <;>
        simp [hp, hargs, NewCommandBuilder, CommandBuilder.BuildArgs,
          CommandBuilder.AddPositional, addFlag_args, foldl_processEnvVarStep_args,
          foldl_positional_args, permFlagArgs]
    | some p =>
      match hn : p.network with
      | none =>
        by_cases hargs : 0 < (goList m.args).length <;>
          simp [hp, hn, hargs, NewCommandBuilder, CommandBuilder.BuildArgs,
            CommandBuilder.AddPositional, addFlag_args, foldl_processEnvVarStep_args,
            foldl_positional_args, permFlagArgs]
      | some np =>
        by_cases hargs : 0 < (goList m.args).length <;>
          simp [hp, hn, hargs, NewCommandBuilder, CommandBuilder.BuildArgs,
            CommandBuilder.AddPositional, addFlag_args, foldl_processEnvVarStep_args,
            foldl_positional_args, permFlagArgs, flagArgs]

/-- C2: for an image-variant entry, BuildRunCommand injects per declared
environment variable exactly the value of `specInjectedValue` (the spec's
strict precedence: non-empty authored default first — so the placeholder is
never used when a default exists, even for required or secret variables —
else the placeholder for required, else the placeholder for secret, else no
`-e` argument at all), one `-e name=value` pair per declaration. -/
theorem envInjectionPrecedence (spec : RegistryEntry) (m : ImageMetadata)
    (tempName image : GoStr) (h : spec.imageMetadata = some m) :
    BuildRunCommand spec tempName image =
      ["run".data] ++ flagArgs "--name".data tempName ++
        (flagArgs "--transport".data m.transport ++
          (goList m.envVars).flatMap (fun v =>
            match specInjectedValue v with
            | some val => ["-e".data, v.name ++ "=".data ++ val]
            | none => []) ++
          permFlagArgs m) ++
        [image] ++ runArgsSection spec := by
  have hd := buildRunCommand_decomp spec tempName image
  rw [hd]
  unfold runMiddle
  rw [h]
  rfl

/-- C2 witness: a concrete entry with one variable of each kind.  The
required-and-secret variable with a default gets the default, the required
one and the secret one get the placeholder, the plain optional one is
omitted. -/
theorem envInjectionPrecedence_witness :
    BuildRunCommand
      { imageMetadata := some
          { name := "s".data, description := [], transport := "stdio".data,
            tier := [], status := [], tools := none, tags := none,
            image := "img".data,
            envVars := some
              [ { name := "A".data, description := [], required := true,
                  secret := true, default := "x".data },
                { name := "B".data, description := [], required := true,
                  secret := false, default := [] },
                { name := "C".data, description := [], required := false,
                  secret := true, default := [] },
                { name := "D".data, description := [], required := false,
                  secret := false, default := [] } ],
            args := none, repositoryURL := [], permissions := none,
            provenance := none, metadata := none },
        remoteServerMetadata := none, examples := [], license := [] }
      "tmp".data "img".data =
      ["run".data, "--name".data, "tmp".data, "--transport".data, "stdio".data,
       "-e".data, "A=x".data, "-e".data, "B=placeholder".data,
       "-e".data, "C=placeholder".data, "img".data] := by
  rw [envInjectionPrecedence _
    { name := "s".data, description := [], transport := "stdio".data,
      tier := [], status := [], tools := none, tags := none,
      image := "img".data,
      envVars := some
        [ { name := "A".data, description := [], required := true,
            secret := true, default := "x".data },
          { name := "B".data, description := [], required := true,
            secret := false, default := [] },
          { name := "C".data, description := [], required := false,
            secret := true, default := [] },
          { name := "D".data, description := [], required := false,
            secret := false, default := [] } ],
      args := none, repositoryURL := [], permissions := none,
      provenance := none, metadata := none }
    "tmp".data "img".data rfl]
  decide

theorem flatMap_nonEmpty_filter (l : List GoStr) :
    l.flatMap (fun a => if a ≠ [] then [a] else []) =
      l.filter (fun a => !a.isEmpty) := by
  induction l with
  | nil => rfl
  | cons a as ih =>
    rw [List.flatMap_cons, List.filter_cons, ih]
    by_cases ha : a = []
    · simp [ha]
    · simp [ha]

/-- C7 as amended: for every entry, every NON-EMPTY temporary instance name
and every resolved image, the `--name` flag and its value come first, right
after the `run` verb; the image is the final positional value before the
server-specific arguments; and when the image-variant entry declares static
arguments, a literal `--` separator follows the image and then each
non-empty declared argument in declared order.  (The original claim also
covered the empty instance name, where the builder skips the flag — see the
counterexample.) -/
theorem runCommandArgOrder (spec : RegistryEntry) (tempName image : GoStr)
    (h : tempName ≠ []) :
    BuildRunCommand spec tempName image =
      "run".data :: "--name".data :: tempName ::
        (runMiddle spec ++ [image] ++ runArgsSection spec) ∧
    runArgsSection spec =
      (match spec.imageMetadata with
       | some m =>
         if 0 < (goList m.args).length then
           "--".data :: (goList m.args).filter (fun a => !a.isEmpty)
         else []
       | none => []) := by
  constructor
  · rw [buildRunCommand_decomp]
    simp [flagArgs, h]
  · unfold runArgsSection
    match spec.imageMetadata with
    | none => rfl
    | some m =>
      show (if 0 < (goList m.args).length then
              "--".data :: (goList m.args).flatMap (fun a => if a ≠ [] then [a] else [])
            else []) =
           (if 0 < (goList m.args).length then
              "--".data :: (goList m.args).filter (fun a => !a.isEmpty)
            else [])
      rw [flatMap_nonEmpty_filter]

/-- C7 counterexample: with an empty temporary instance name the builder
skips the `--name` flag entirely, so the instance-name flag is not set
first (nor at all), contradicting the claim's "for every temporary instance
name". -/
theorem runCommandArgOrder_counterexample :
    BuildRunCommand
      { imageMetadata := none, remoteServerMetadata := none,
        examples := [], license := [] } [] "img".data =
      ["run".data, "img".data] ∧
    "--name".data ∉ BuildRunCommand
      { imageMetadata := none, remoteServerMetadata := none,
        examples := [], license := [] } [] "img".data := by
  exact ⟨by decide, by decide⟩

/-- C7 witness: the amended theorem applied to a concrete entry with static
arguments, one of them empty. -/
theorem runCommandArgOrder_witness :
    BuildRunCommand
      { imageMetadata := some
          { name := "s".data, description := [], transport := [],
            tier := [], status := [], tools := none, tags := none,
            image := "img".data, envVars := none,
            args := some ["--a".data, [], "--b".data],
            repositoryURL := [], permissions := none,
            provenance := none, metadata := none },
        remoteServerMetadata := none, examples := [], license := [] }
      "tmp".data "img".data =
      ["run".data, "--name".data, "tmp".data, "img".data,
       "--".data, "--a".data, "--b".data] := by
  have h := runCommandArgOrder
    { imageMetadata := some
        { name := "s".data, description := [], transport := [],
          tier := [], status := [], tools := none, tags := none,
          image := "img".data, envVars := none,
          args := some ["--a".data, [], "--b".data],
          repositoryURL := [], permissions := none,
          provenance := none, metadata := none },
      remoteServerMetadata := none, examples := [], license := [] }
    "tmp".data "img".data (by decide)
  rw [h.1, h.2]
  decide

/-! ## Entry decoder (pkg/types RegistryEntry.UnmarshalYAML)

The decoder first unmarshals the raw document into a key-to-value map and
dispatches on the presence of the `image` and `url` keys; the later typed
unmarshal calls and the extension overlay are external YAML machinery.  We
embed the variant dispatch over the list of top-level keys of the raw
document. -/

/-- The variant selected by the decoder. -/
inductive DecodedVariant where
  | image
  | remote
deriving DecidableEq

/-- Variant dispatch of RegistryEntry.UnmarshalYAML: both `image` and `url`
present, or neither present, is a decode error; otherwise the present key
selects the variant. -/
def unmarshalVariant (rawKeys : List GoStr) : Except GoStr DecodedVariant :=
  let hasImage := rawKeys.contains "image".data
  let hasURL := rawKeys.contains "url".data
  if hasImage && hasURL then
    .error "entry cannot have both image and url fields".data
  else if !hasImage && !hasURL then
    .error "entry must have either image or url field".data
  else if hasImage then .ok .image
  else .ok .remote

/-- C3: decoding fails when the raw document has both an `image` and a `url`
key, fails when it has neither, and otherwise selects the variant of the one
key that is present (no failure from the discriminator in that case). -/
theorem variantDispatch (rawKeys : List GoStr) :
    (rawKeys.contains "image".data = true → rawKeys.contains "url".data = true →
       (unmarshalVariant rawKeys).isOk = false) ∧
    (rawKeys.contains "image".data = false → rawKeys.contains "url".data = false →
       (unmarshalVariant rawKeys).isOk = false) ∧
    (rawKeys.contains "image".data = true → rawKeys.contains "url".data = false →
       unmarshalVariant rawKeys = .ok .image) ∧
    (rawKeys.contains "image".data = false → rawKeys.contains "url".data = true →
       unmarshalVariant rawKeys = .ok .remote) := by
  refine ⟨fun h1 h2 => ?_, fun h1 h2 => ?_, fun h1 h2 => ?_, fun h1 h2 => ?_⟩ <;>
    · unfold unmarshalVariant
      simp only [h1, h2]
      rfl

/-- C3 witness: the theorem applied to the four concrete key-set shapes. -/
theorem variantDispatch_witness :
    (unmarshalVariant ["image".data, "url".data]).isOk = false ∧
    (unmarshalVariant ["transport".data]).isOk = false ∧
    unmarshalVariant ["image".data, "transport".data] = .ok .image ∧
    unmarshalVariant ["url".data, "transport".data] = .ok .remote := by
  refine ⟨?_, ?_, ?_, ?_⟩
  · exact (variantDispatch ["image".data, "url".data]).1 (by decide) (by decide)
  · exact (variantDispatch ["transport".data]).2.1 (by decide) (by decide)
  · exact (variantDispatch ["image".data, "transport".data]).2.2.1 (by decide) (by decide)
  · exact (variantDispatch ["url".data, "transport".data]).2.2.2 (by decide) (by decide)

/-! ## Native catalog builder (pkg/registry/toolhive.go)

`processImageMetadata` copies the `ImageMetadata` struct by value, which
copies the `Permissions` *pointer*: the normalizing writes
`result.Permissions.Read = ...` etc. go through that shared pointer and are
visible in the loader's original entry.  The embedding makes the shared
object explicit: the function returns both the result record and the
post-write state of the pointed-to `Permissions` object; an entry that went
through the build observes that post-state (`entryAfterBuild`). -/

/-- The in-place normalization of the outbound network permissions object
(nil AllowHost/AllowPort slices become empty). -/
def normalizeOutbound (ob : OutboundNetworkPermissions) : OutboundNetworkPermissions :=
  { ob with
      allowHost := if ob.allowHost = none then some [] else ob.allowHost
      allowPort := if ob.allowPort = none then some [] else ob.allowPort }

/-- The in-place normalization of the permissions object performed by
processImageMetadata when the entry has one: nil Read/Write become empty,
and nested outbound network slices likewise. -/
def normalizePermissions (p : Permissions) : Permissions :=
  let p1 : Permissions :=
    { p with
        read := if p.read = none then some [] else p.read
        write := if p.write = none then some [] else p.write }
  match p1.network with
  | some np =>
    match np.outbound with
    | some ob => { p1 with network := some { np with outbound := some (normalizeOutbound ob) } }
    | none => p1
  | none => p1

/-- processImageMetadata: the returned record (first component) and the
post-write state of the shared Permissions object (second component). -/
def processImageMetadata (m : ImageMetadata) : ImageMetadata × Option Permissions :=
  let perms := m.permissions.map normalizePermissions
  ({ m with
      name := []
      tier := if m.tier = [] then "Community".data else m.tier
      status := if m.status = [] then "Active".data else m.status
      tools := if m.tools = none then some [] else m.tools
      tags := if m.tags = none then some [] else m.tags
      envVars := if m.envVars = none then some [] else m.envVars
      args := if m.args = none then some [] else m.args
      permissions := perms },
   perms)

/-- processRemoteMetadata: pure value copy with defaults and empty-slice
canonicalization (no pointer-chased writes). -/
def processRemoteMetadata (m : RemoteServerMetadata) : RemoteServerMetadata :=
  { m with
      name := []
      tier := if m.tier = [] then "Community".data else m.tier
      status := if m.status = [] then "Active".data else m.status
      tools := if m.tools = none then some [] else m.tools
      tags := if m.tags = none then some [] else m.tags
      envVars := if m.envVars = none then some [] else m.envVars
      headers := if m.headers = none then some [] else m.headers }

/-- The loader's entry map, as the list of its key/value pairs.  Go map keys
are unique; theorems that need this carry a `Nodup` hypothesis. -/
abbrev EntryMap := List (GoStr × RegistryEntry)

/-- Map indexing `entries[name]`. -/
def lookupEntry (entries : EntryMap) (n : GoStr) : Option RegistryEntry :=
  (entries.find? (fun p => p.1 = n)).map Prod.snd

/-- The record the native build inserts into `Servers[name]`, when any. -/
def nativeImageRecord (entries : EntryMap) (n : GoStr) : Option ImageMetadata :=
  match lookupEntry entries n with
  | some e =>
    if e.IsImage then
      match e.imageMetadata with
      | some m => some (processImageMetadata m).1
      | none => none
    else none
  | none => none

/-- The record the native build inserts into `RemoteServers[name]`, when
any (the `else if` branch: only when the entry is not image-backed). -/
def nativeRemoteRecord (entries : EntryMap) (n : GoStr) : Option RemoteServerMetadata :=
  match lookupEntry entries n with
  | some e =>
    if ¬ e.IsImage ∧ e.IsRemote then
      match e.remoteServerMetadata with
      | some m => some (processRemoteMetadata m)
      | none => none
    else none
  | none => none

/-- The native `Servers` collection in emission order.  Go stores these in a
map and `encoding/json` serializes map keys in ascending order; since the
build loop iterates the sorted names, listing the inserted pairs in loop
order is exactly the serialized key order. -/
def nativeServers (entries : EntryMap) : List (GoStr × ImageMetadata) :=
  (sortStrings (entries.map Prod.fst)).filterMap
    (fun n => (nativeImageRecord entries n).map (fun m => (n, m)))

/-- The native `RemoteServers` collection in emission order. -/
def nativeRemoteServers (entries : EntryMap) : List (GoStr × RemoteServerMetadata) :=
  (sortStrings (entries.map Prod.fst)).filterMap
    (fun n => (nativeRemoteRecord entries n).map (fun m => (n, m)))

/-- toolhive Registry: the native catalog document. -/
structure Registry where
  version : GoStr
  lastUpdated : GoStr
  servers : List (GoStr × ImageMetadata)
  remoteServers : List (GoStr × RemoteServerMetadata)
deriving DecidableEq

/-- The registry value Builder.Build constructs (current time passed in as
`now`). -/
def builderBuildRegistry (now : GoStr) (entries : EntryMap) : Registry :=
  { version := "1.0.0".data
    lastUpdated := now
    servers := nativeServers entries
    remoteServers := nativeRemoteServers entries }

/-- Builder.Build: returns the registry and a nil error on every path. -/
def builderBuild (now : GoStr) (entries : EntryMap) : Except GoStr Registry :=
  .ok (builderBuildRegistry now entries)

/-- The state of one loaded entry after the native build ran: for an
image-backed entry the shared Permissions object has been normalized in
place; everything else is untouched (the other normalized fields live in the
copied struct, not behind the pointer). -/
def entryAfterBuild (e : RegistryEntry) : RegistryEntry :=
  match e.imageMetadata with
  | some m =>
    if e.IsImage then
      { e with imageMetadata := some { m with permissions := (processImageMetadata m).2 } }
    else e
  | none => e

/-- The loader's entry map as observable after Builder.Build. -/
def entriesAfterBuild (entries : EntryMap) : EntryMap :=
  entries.map (fun p => (p.1, entryAfterBuild p.2))

/-! ## Standards catalog builder (pkg/registry/official.go)

The `_meta` extension maps are Go `map[string]interface{}`; we model them as
key/value association lists in insertion order with an inductive payload
type covering the values the code stores.  The separately namespaced
"official" registry-extensions block (a freshly generated uuid and
`time.Now` timestamps) is nondeterministic output metadata that no claim
touches; it is not part of the deterministic model. -/

/-- model.Status of the upstream MCP model. -/
inductive MCPStatus where
  | active
  | deprecated
deriving DecidableEq

/-- convertStatus: ToolHive status string to model.Status; empty and unknown
values default to active. -/
def convertStatus (status : GoStr) : MCPStatus :=
  if status = "Active".data then .active
  else if status = [] then .active
  else if status = "Deprecated".data then .deprecated
  else .active

/-- A value stored in the publisher-extension map. -/
inductive ExtValue where
  | str (s : GoStr)
  | strList (l : List GoStr)
  | perms (p : Permissions)
  | oauth (c : OAuthConfig)
  | exampleList (l : List Example)
  | blob (b : GoStr)
deriving DecidableEq

/-- One publisher-extension map: insertion-ordered key/value pairs. -/
abbrev ExtMap := List (GoStr × ExtValue)

/-- addImageSpecificExtensions. -/
def addImageSpecificExtensions (ext : ExtMap) (e : RegistryEntry) : ExtMap :=
  match e.imageMetadata with
  | none => ext
  | some m =>
    let ext := if 0 < (goList m.tags).length
      then ext ++ [("tags".data, ExtValue.strList (goList m.tags))] else ext
    let ext := match m.permissions with
      | some p => ext ++ [("permissions".data, ExtValue.perms p)]
      | none => ext
    let ext := if 0 < (goList m.args).length
      then ext ++ [("args".data, ExtValue.strList (goList m.args))] else ext
    let ext := match m.metadata with
      | some md => ext ++ [("metadata".data, ExtValue.blob md)]
      | none => ext
    match m.provenance with
    | some pv => ext ++ [("provenance".data, ExtValue.blob pv)]
    | none => ext

/-- addRemoteSpecificExtensions. -/
def addRemoteSpecificExtensions (ext : ExtMap) (e : RegistryEntry) : ExtMap :=
  match e.remoteServerMetadata with
  | none => ext
  | some m =>
    let ext := if 0 < (goList m.tags).length
      then ext ++ [("tags".data, ExtValue.strList (goList m.tags))] else ext
    let ext := match m.oauthConfig with
      | some c => ext ++ [("oauth_config".data, ExtValue.oauth c)]
      | none => ext
    match m.metadata with
    | some md => ext ++ [("metadata".data, ExtValue.blob md)]
    | none => ext

/-- addCommonExtensions: examples and license when present. -/
def addCommonExtensions (ext : ExtMap) (e : RegistryEntry) : ExtMap :=
  let ext := if 0 < e.examples.length
    then ext ++ [("examples".data, ExtValue.exampleList e.examples)] else ext
  if e.license ≠ [] then ext ++ [("license".data, ExtValue.str e.license)] else ext

/-- createToolHiveExtensions: transport always; tools and tier only when
non-empty; then variant-specific and common extensions. -/
def createToolHiveExtensions (e : RegistryEntry) : ExtMap :=
  let ext : ExtMap := [("transport".data, ExtValue.str e.getTransport)]
  let ext := if 0 < e.getTools.length
    then ext ++ [("tools".data, ExtValue.strList e.getTools)] else ext
  let ext := if e.getTier ≠ []
    then ext ++ [("tier".data, ExtValue.str e.getTier)] else ext
  let ext :=
    if e.IsImage then addImageSpecificExtensions ext e
    else if e.IsRemote then addRemoteSpecificExtensions ext e
    else ext
  addCommonExtensions ext e

/-- createXPublisherExtensions: the ToolHive payload keyed by the entry's
image reference or URL (the enclosing single-key "toolhive" wrapper map is
elided; the empty list is the empty map returned when neither variant is
active). -/
def createXPublisherExtensions (e : RegistryEntry) : List (GoStr × ExtMap) :=
  if e.IsImage then
    match e.imageMetadata with
    | some m => [(m.image, createToolHiveExtensions e)]
    | none => []
  else if e.IsRemote then
    match e.remoteServerMetadata with
    | some m => [(m.url, createToolHiveExtensions e)]
    | none => []
  else []

/-- model.Repository. -/
structure Repository where
  url : GoStr
  source : GoStr
deriving DecidableEq

/-- createRepository: prefer the variant's declared repository URL; remote
entries with none get a fixed placeholder; image entries with none get an
empty repository. -/
def createRepository (e : RegistryEntry) : Repository :=
  let repositoryURL : GoStr :=
    if e.IsImage ∧ (e.imageMetadata.map ImageMetadata.repositoryURL).getD [] ≠ [] then
      (e.imageMetadata.map ImageMetadata.repositoryURL).getD []
    else if e.IsRemote ∧
        (e.remoteServerMetadata.map RemoteServerMetadata.repositoryURL).getD [] ≠ [] then
      (e.remoteServerMetadata.map RemoteServerMetadata.repositoryURL).getD []
    else []
  if repositoryURL = [] then
    if e.IsRemote then
      { url := "https://github.com/stacklok/toolhive-registry".data, source := "github".data }
    else { url := [], source := [] }
  else { url := repositoryURL, source := "github".data }

/-- model.KeyValueInput (flattened Input fields). -/
structure KeyValueInput where
  name : GoStr
  description : GoStr
  isRequired : Bool
  isSecret : Bool
  default : GoStr
deriving DecidableEq

/-- model.Package. -/
structure Package where
  registryType : GoStr
  registryBaseURL : GoStr
  identifier : GoStr
  version : GoStr
  environmentVariables : List KeyValueInput
deriving DecidableEq

/-- createPackages: one OCI package per image entry, with graceful fallback
when the image reference fails to parse. -/
def createPackages (e : RegistryEntry) : List Package :=
  match e.imageMetadata with
  | none => []
  | some m =>
    if ¬ e.IsImage ∨ m.image = [] then []
    else
      let envVars := (goList m.envVars).map (fun v =>
        { name := v.name, description := v.description, isRequired := v.required,
          isSecret := v.secret, default := v.default : KeyValueInput })
      match parseImageReference m.image with
      | .ok (reg, ident, ver) =>
        [{ registryType := "oci".data, registryBaseURL := reg, identifier := ident,
           version := ver, environmentVariables := envVars }]
      | .error _ =>
        [{ registryType := "oci".data, registryBaseURL := [], identifier := m.image,
           version := [], environmentVariables := envVars }]

/-- model.Remote. -/
structure Remote where
  transportType : GoStr
  url : GoStr
  headers : List KeyValueInput
deriving DecidableEq

/-- createRemotes: one remote descriptor per remote entry; headers carry no
default or choices at this layer. -/
def createRemotes (e : RegistryEntry) : List Remote :=
  match e.remoteServerMetadata with
  | none => []
  | some m =>
    if ¬ e.IsRemote ∨ m.url = [] then []
    else
      let headers := (goList m.headers).map (fun h =>
        { name := h.name, description := h.description, isRequired := h.required,
          isSecret := h.secret, default := [] : KeyValueInput })
      [{ transportType := e.getTransport, url := m.url, headers := headers }]

/-- upstream ServerJSON, restricted to the deterministic fields this
repository fills (the nondeterministic registry-extensions block aside). -/
structure ServerJSON where
  name : GoStr
  description : GoStr
  status : MCPStatus
  repository : Repository
  version : GoStr
  publisherProvided : List (GoStr × ExtMap)
  packages : List Package
  remotes : List Remote
deriving DecidableEq

/-- transformEntry: one loaded entry to one upstream server record. -/
def transformEntry (n : GoStr) (e : RegistryEntry) : ServerJSON :=
  { name := n
    description := e.getDescription
    status := convertStatus e.getStatus
    repository := createRepository e
    version := "1.0.0".data
    publisherProvided := createXPublisherExtensions e
    packages := if e.IsImage then createPackages e else []
    remotes := if e.IsRemote then createRemotes e else [] }

/-- Meta block of the official registry document. -/
structure Meta where
  lastUpdated : GoStr
deriving DecidableEq

/-- Placeholder group type (named Group in the source; no fields yet). -/
structure RegGroup where
deriving DecidableEq

/-- Data block of the official registry document. -/
structure Data where
  servers : List ServerJSON
  groups : List RegGroup
deriving DecidableEq

/-- ToolHiveRegistryType: the official-format registry document. -/
structure ToolHiveRegistryType where
  schema : GoStr
  version : GoStr
  meta : Meta
  data : Data
deriving DecidableEq

/-- OfficialRegistry.build: transform entries in sorted name order. -/
def officialBuild (now : GoStr) (entries : EntryMap) : ToolHiveRegistryType :=
  let names := sortStrings (entries.map Prod.fst)
  let servers := names.filterMap
    (fun n => (lookupEntry entries n).map (transformEntry n))
  { schema := "https://raw.githubusercontent.com/stacklok/toolhive-registry/main/schemas/registry.schema.json".data
    version := "1.0.0".data
    meta := { lastUpdated := now }
    data := { servers := servers, groups := [] } }

/-! ## Claims on the native build -/

/-- A permissions object with nil Read/Write slices. -/
def permsC6 : Permissions := { read := none, write := none, network := none }

/-- An image entry whose permissions object has nil Read/Write slices. -/
def entryC6 : RegistryEntry :=
  { imageMetadata := some
      { name := "srv".data, description := [], transport := "stdio".data,
        tier := [], status := [], tools := none, tags := none,
        image := "img".data, envVars := none, args := none,
        repositoryURL := [], permissions := some permsC6,
        provenance := none, metadata := none },
    remoteServerMetadata := none, examples := [], license := [] }

/-- C6: the claim says Builder.Build leaves every loaded entry unchanged,
including fields reached through nested pointers.  `processImageMetadata`
copies the metadata struct shallowly, so its writes to
`result.Permissions.Read`/`Write` go through the pointer shared with the
loader's entry: after the build, the entry's permissions object has its nil
Read/Write slices replaced by empty ones.  The code's own comment ("Create a
copy of the ImageMetadata") and the spec's read-only contract make the
mutation a slip, not intent. -/
theorem nativeBuildMutatesSharedPermissions :
    entryAfterBuild entryC6 ≠ entryC6 ∧
    (entryAfterBuild entryC6).imageMetadata =
      (entryC6.imageMetadata.map (fun m =>
        { m with permissions := some ⟨some [], some [], none⟩ })) := by
  exact ⟨by decide, by decide⟩

theorem lookupEntry_eq_of_mem {entries : EntryMap} {n : GoStr} {e : RegistryEntry}
    (hnd : (entries.map Prod.fst).Nodup) (hmem : (n, e) ∈ entries) :
    lookupEntry entries n = some e := by
  induction entries with
  | nil => cases hmem
  | cons p ps ih =>
    rw [List.map_cons, List.nodup_cons] at hnd
    obtain ⟨hp, hnd⟩ := hnd
    rcases List.mem_cons.mp hmem with him | him
    · rw [← him]
      simp [lookupEntry, List.find?]
    · have hne : ¬ p.1 = n := by
        intro hEq
        exact hp (hEq ▸ List.mem_map.mpr ⟨(n, e), him, rfl⟩)
      have hrec := ih hnd him
      unfold lookupEntry at hrec ⊢
      rw [List.find?_cons_of_neg]
      · exact hrec
      · simp [hne]

theorem lookupEntry_some_mem {entries : EntryMap} {n : GoStr} {v : RegistryEntry}
    (h : lookupEntry entries n = some v) : (n, v) ∈ entries := by
  unfold lookupEntry at h
  cases hf : entries.find? (fun q => q.1 = n) with
  | none => rw [hf] at h; cases h
  | some p =>
    rw [hf] at h
    have hsnd : p.2 = v := by
      simpa using h
    have hm := List.mem_of_find?_eq_some hf
    have hkey : p.1 = n := by
      have := List.find?_some hf
      simpa using this
    have : (n, v) = p := by
      rw [← hkey, ← hsnd]
    rw [this]
    exact hm

/-- C10: an entry that is neither image- nor remote-backed (for instance an
image payload with an empty image reference) is silently skipped by the
native build: no error is returned, and the entry's name keys neither the
image-backed nor the remote-backed collection. -/
theorem inactiveEntryOmitted (now n : GoStr) (e : RegistryEntry) (entries : EntryMap)
    (hnd : (entries.map Prod.fst).Nodup) (hmem : (n, e) ∈ entries)
    (hni : e.IsImage = false) (hnr : e.IsRemote = false) :
    builderBuild now entries = .ok (builderBuildRegistry now entries) ∧
    n ∉ (nativeServers entries).map Prod.fst ∧
    n ∉ (nativeRemoteServers entries).map Prod.fst := by
  have hlook : lookupEntry entries n = some e := lookupEntry_eq_of_mem hnd hmem
  refine ⟨rfl, ?_, ?_⟩
  · intro hIn
    obtain ⟨p, hpmem, hpfst⟩ := List.mem_map.mp hIn
    obtain ⟨n', _, hn'⟩ := List.mem_filterMap.mp hpmem
    cases hrec : nativeImageRecord entries n' with
    | none => rw [hrec] at hn'; cases hn'
    | some m =>
      rw [hrec] at hn'
      have hpair : (n', m) = p := by simpa using hn'
      have hn'n : n' = n := by rw [← hpfst, ← hpair]
      rw [hn'n] at hrec
      unfold nativeImageRecord at hrec
      rw [hlook] at hrec
      simp [hni] at hrec
  · intro hIn
    obtain ⟨p, hpmem, hpfst⟩ := List.mem_map.mp hIn
    obtain ⟨n', _, hn'⟩ := List.mem_filterMap.mp hpmem
    cases hrec : nativeRemoteRecord entries n' with
    | none => rw [hrec] at hn'; cases hn'
    | some m =>
      rw [hrec] at hn'
      have hpair : (n', m) = p := by simpa using hn'
      have hn'n : n' = n := by rw [← hpfst, ← hpair]
      rw [hn'n] at hrec
      unfold nativeRemoteRecord at hrec
      rw [hlook] at hrec
      simp [hnr] at hrec

/-- C10 witness: a concrete map with one inactive entry (image payload
present but empty image reference) and one live entry. -/
theorem inactiveEntryOmitted_witness :
    builderBuild "t".data
        [("dead".data,
          { imageMetadata := some
              { name := "dead".data, description := [], transport := [],
                tier := [], status := [], tools := none, tags := none,
                image := [], envVars := none, args := none, repositoryURL := [],
                permissions := none, provenance := none, metadata := none },
            remoteServerMetadata := none, examples := [], license := [] })] =
      .ok (builderBuildRegistry "t".data
        [("dead".data,
          { imageMetadata := some
              { name := "dead".data, description := [], transport := [],
                tier := [], status := [], tools := none, tags := none,
                image := [], envVars := none, args := none, repositoryURL := [],
                permissions := none, provenance := none, metadata := none },
            remoteServerMetadata := none, examples := [], license := [] })]) ∧
    "dead".data ∉ (nativeServers
        [("dead".data,
          { imageMetadata := some
              { name := "dead".data, description := [], transport := [],
                tier := [], status := [], tools := none, tags := none,
                image := [], envVars := none, args := none, repositoryURL := [],
                permissions := none, provenance := none, metadata := none },
            remoteServerMetadata := none, examples := [], license := [] })]).map Prod.fst := by
  have h := inactiveEntryOmitted "t".data "dead".data
    { imageMetadata := some
        { name := "dead".data, description := [], transport := [],
          tier := [], status := [], tools := none, tags := none,
          image := [], envVars := none, args := none, repositoryURL := [],
          permissions := none, provenance := none, metadata := none },
      remoteServerMetadata := none, examples := [], license := [] }
    [("dead".data,
      { imageMetadata := some
          { name := "dead".data, description := [], transport := [],
            tier := [], status := [], tools := none, tags := none,
            image := [], envVars := none, args := none, repositoryURL := [],
            permissions := none, provenance := none, metadata := none },
        remoteServerMetadata := none, examples := [], license := [] })]
    (by decide) (by decide) (by decide) (by decide)
  exact ⟨h.1, h.2.1⟩

/-! ## Idempotence of the native build (C9) -/

theorem normalizeOutbound_idem (ob : OutboundNetworkPermissions) :
    normalizeOutbound (normalizeOutbound ob) = normalizeOutbound ob := by
  unfold normalizeOutbound
  rcases ob with ⟨ia, ah, ap⟩
  cases ah <;> cases ap <;> simp

theorem normalizePermissions_idem (p : Permissions) :
    normalizePermissions (normalizePermissions p) = normalizePermissions p := by
  unfold normalizePermissions
  rcases p with ⟨r, w, nw⟩
  cases nw with
  | none => cases r <;> cases w <;> simp
  | some np =>
    rcases np with ⟨ob⟩
    cases ob with
    | none => cases r <;> cases w <;> simp
    | some o => cases r <;> cases w <;> simp [normalizeOutbound_idem]

theorem processImageMetadata_stable (m : ImageMetadata) :
    (processImageMetadata
        { m with permissions := m.permissions.map normalizePermissions }).1 =
      (processImageMetadata m).1 := by
  unfold processImageMetadata
  cases hp : m.permissions <;> simp [normalizePermissions_idem]

theorem entriesAfterBuild_keys (entries : EntryMap) :
    (entriesAfterBuild entries).map Prod.fst = entries.map Prod.fst := by
  unfold entriesAfterBuild
  rw [List.map_map]
  rfl

theorem lookupEntry_after (entries : EntryMap) (n : GoStr) :
    lookupEntry (entriesAfterBuild entries) n =
      (lookupEntry entries n).map entryAfterBuild := by
  induction entries with
  | nil => rfl
  | cons p ps ih =>
    unfold entriesAfterBuild at ih ⊢
    rw [List.map_cons]
    by_cases h : p.1 = n
    · unfold lookupEntry
      rw [List.find?_cons_of_pos, List.find?_cons_of_pos]
      · rfl
      · simp [h]
      · simp [h]
    · unfold lookupEntry at ih ⊢
      rw [List.find?_cons_of_neg, List.find?_cons_of_neg]
      · exact ih
      · simp [h]
      · simp [h]

theorem isImage_after (e : RegistryEntry) :
    (entryAfterBuild e).IsImage = e.IsImage := by
  unfold entryAfterBuild
  cases h : e.imageMetadata with
  | none => rfl
  | some m =>
    by_cases hi : e.IsImage
    · simp only [hi, if_pos]
      simp [RegistryEntry.IsImage, h] at hi ⊢
      exact hi
    · simp [hi]

theorem isRemote_after (e : RegistryEntry) :
    (entryAfterBuild e).IsRemote = e.IsRemote := by
  unfold entryAfterBuild
  cases h : e.imageMetadata with
  | none => rfl
  | some m =>
    by_cases hi : e.IsImage
    · simp only [hi, if_pos]
      simp [RegistryEntry.IsRemote]
    · simp [hi]

theorem remoteMeta_after (e : RegistryEntry) :
    (entryAfterBuild e).remoteServerMetadata = e.remoteServerMetadata := by
  unfold entryAfterBuild
  cases h : e.imageMetadata with
  | none => rfl
  | some m =>
    by_cases hi : e.IsImage
    · simp [hi]
    · simp [hi]

theorem nativeImageRecord_after (entries : EntryMap) (n : GoStr) :
    nativeImageRecord (entriesAfterBuild entries) n = nativeImageRecord entries n := by
  unfold nativeImageRecord
  rw [lookupEntry_after]
  cases he : lookupEntry entries n with
  | none => rfl
  | some e =>
    simp only [Option.map_some']
    rw [isImage_after]
    by_cases hi : e.IsImage
    · simp only [hi, if_pos]
      unfold entryAfterBuild
      cases hm : e.imageMetadata with
      | none => simp [hm]
      | some m =>
        simp only [hi, if_pos]
        have h2 : (processImageMetadata m).2 = m.permissions.map normalizePermissions := rfl
        simp [h2, processImageMetadata_stable]
    · simp [hi]

theorem nativeRemoteRecord_after (entries : EntryMap) (n : GoStr) :
    nativeRemoteRecord (entriesAfterBuild entries) n = nativeRemoteRecord entries n := by
  unfold nativeRemoteRecord
  rw [lookupEntry_after]
  cases he : lookupEntry entries n with
  | none => rfl
  | some e =>
    simp only [Option.map_some']
    rw [isImage_after, isRemote_after, remoteMeta_after]

/-- C9: building the native catalog a second time, from the entry set as it
stands after the first build, yields the same version, the same image-backed
server records and the same remote-server records; the two builds differ
only in the last-updated timestamp (here the `now` arguments).  The first
build's in-place permissions normalization is idempotent, so the records it
emits are unchanged the second time. -/
theorem nativeBuildIdempotent (now1 now2 : GoStr) (entries : EntryMap) :
    (builderBuildRegistry now2 (entriesAfterBuild entries)).version =
      (builderBuildRegistry now1 entries).version ∧
    (builderBuildRegistry now2 (entriesAfterBuild entries)).servers =
      (builderBuildRegistry now1 entries).servers ∧
    (builderBuildRegistry now2 (entriesAfterBuild entries)).remoteServers =
      (builderBuildRegistry now1 entries).remoteServers := by
  refine ⟨rfl, ?_, ?_⟩
  · show nativeServers (entriesAfterBuild entries) = nativeServers entries
    unfold nativeServers
    rw [entriesAfterBuild_keys]
    have hfun : (fun n => (nativeImageRecord (entriesAfterBuild entries) n).map
        (fun m => (n, m))) =
        (fun n => (nativeImageRecord entries n).map (fun m => (n, m))) :=
      funext (fun n => by rw [nativeImageRecord_after])
    rw [hfun]
  · show nativeRemoteServers (entriesAfterBuild entries) = nativeRemoteServers entries
    unfold nativeRemoteServers
    rw [entriesAfterBuild_keys]
    have hfun : (fun n => (nativeRemoteRecord (entriesAfterBuild entries) n).map
        (fun m => (n, m))) =
        (fun n => (nativeRemoteRecord entries n).map (fun m => (n, m))) :=
      funext (fun n => by rw [nativeRemoteRecord_after])
    rw [hfun]

/-! ## Deterministic ascending emission (C8) -/

theorem map_fst_filterMap_pair {β : Type} (g : GoStr → Option β) (l : List GoStr) :
    ((l.filterMap (fun n => (g n).map (fun m => (n, m)))).map Prod.fst) =
      l.filter (fun n => (g n).isSome) := by
  induction l with
  | nil => rfl
  | cons n ns ih => cases h : g n <;> simp [h, List.filter_cons, ih]

theorem officialServers_names (entries : EntryMap) (names : List GoStr) :
    ((names.filterMap (fun n => (lookupEntry entries n).map (transformEntry n))).map
        ServerJSON.name) =
      names.filter (fun n => (lookupEntry entries n).isSome) := by
  induction names with
  | nil => rfl
  | cons n ns ih =>
    cases h : lookupEntry entries n <;>
      simp [h, List.filter_cons, ih, transformEntry]

theorem lookupEntry_perm {e1 e2 : EntryMap} (hperm : List.Perm e1 e2)
    (hnd : (e1.map Prod.fst).Nodup) (n : GoStr) :
    lookupEntry e1 n = lookupEntry e2 n := by
  have hnd2 : (e2.map Prod.fst).Nodup := ((hperm.map Prod.fst).nodup_iff).mp hnd
  cases h1 : lookupEntry e1 n with
  | some v =>
    have hm := lookupEntry_some_mem h1
    have hm2 := hperm.mem_iff.mp hm
    rw [lookupEntry_eq_of_mem hnd2 hm2]
  | none =>
    cases h2 : lookupEntry e2 n with
    | none => rfl
    | some v =>
      have hm := lookupEntry_some_mem h2
      have hm1 := hperm.mem_iff.mpr hm
      rw [lookupEntry_eq_of_mem hnd hm1] at h1
      cases h1

/-- C8: regardless of discovery/insertion order (any permutation of the
loader's key/value pairs with duplicate-free names), the standards catalog's
server list is ordered ascending by name, the native catalog's two
name-keyed collections are emitted with keys in ascending order, and both
whole outputs are identical across permutations. -/
theorem catalogsEmitSorted (now : GoStr) (e1 e2 : EntryMap)
    (hperm : List.Perm e1 e2) (hnd : (e1.map Prod.fst).Nodup) :
    ((officialBuild now e1).data.servers.map ServerJSON.name).Pairwise strAsc ∧
    ((nativeServers e1).map Prod.fst).Pairwise strAsc ∧
    ((nativeRemoteServers e1).map Prod.fst).Pairwise strAsc ∧
    officialBuild now e1 = officialBuild now e2 ∧
    builderBuild now e1 = builderBuild now e2 := by
  have hsortEq : sortStrings (e1.map Prod.fst) = sortStrings (e2.map Prod.fst) :=
    sortStrings_eq_of_perm (hperm.map Prod.fst)
  have hlook : ∀ n, lookupEntry e1 n = lookupEntry e2 n := lookupEntry_perm hperm hnd
  refine ⟨?_, ?_, ?_, ?_, ?_⟩
  · rw [show (officialBuild now e1).data.servers =
        (sortStrings (e1.map Prod.fst)).filterMap
          (fun n => (lookupEntry e1 n).map (transformEntry n)) from rfl]
    rw [officialServers_names]
    exact List.Pairwise.sublist (List.filter_sublist _) (sortStrings_pairwise _)
  · unfold nativeServers
    rw [map_fst_filterMap_pair]
    exact List.Pairwise.sublist (List.filter_sublist _) (sortStrings_pairwise _)
  · unfold nativeRemoteServers
    rw [map_fst_filterMap_pair]
    exact List.Pairwise.sublist (List.filter_sublist _) (sortStrings_pairwise _)
  · unfold officialBuild
    rw [hsortEq]
    have hfun : (fun n => (lookupEntry e1 n).map (transformEntry n)) =
        (fun n => (lookupEntry e2 n).map (transformEntry n)) :=
      funext (fun n => by rw [hlook n])
    rw [hfun]
  · have h1 : (fun n => (nativeImageRecord e1 n).map (fun m => (n, m))) =
        (fun n => (nativeImageRecord e2 n).map (fun m => (n, m))) :=
      funext (fun n => by unfold nativeImageRecord; rw [hlook n])
    have h2 : (fun n => (nativeRemoteRecord e1 n).map (fun m => (n, m))) =
        (fun n => (nativeRemoteRecord e2 n).map (fun m => (n, m))) :=
      funext (fun n => by unfold nativeRemoteRecord; rw [hlook n])
    unfold builderBuild builderBuildRegistry nativeServers nativeRemoteServers
    rw [hsortEq, h1, h2]

/-- A small image entry used by the C8 witness. -/
def entryA : RegistryEntry :=
  { imageMetadata := some
      { name := "a".data, description := [], transport := "stdio".data,
        tier := [], status := [], tools := none, tags := none,
        image := "img-a".data, envVars := none, args := none,
        repositoryURL := [], permissions := none, provenance := none,
        metadata := none },
    remoteServerMetadata := none, examples := [], license := [] }

/-- A small remote entry used by the C8 witness. -/
def entryB : RegistryEntry :=
  { imageMetadata := none,
    remoteServerMetadata := some
      { name := "b".data, description := [], transport := "sse".data,
        tier := [], status := [], tools := none, tags := none,
        url := "https://b".data, repositoryURL := [], headers := none,
        oauthConfig := none, envVars := none, customMetadata := none,
        metadata := none },
    examples := [], license := [] }

/-- C8 witness: two permutations of the same two-entry map produce identical
catalogs with names emitted ascending. -/
theorem catalogsEmitSorted_witness :
    ((officialBuild "t".data [("b".data, entryB), ("a".data, entryA)]).data.servers.map
        ServerJSON.name).Pairwise strAsc ∧
    officialBuild "t".data [("b".data, entryB), ("a".data, entryA)] =
      officialBuild "t".data [("a".data, entryA), ("b".data, entryB)] ∧
    builderBuild "t".data [("b".data, entryB), ("a".data, entryA)] =
      builderBuild "t".data [("a".data, entryA), ("b".data, entryB)] := by
  have h := catalogsEmitSorted "t".data
    [("b".data, entryB), ("a".data, entryA)]
    [("a".data, entryA), ("b".data, entryB)]
    (by decide) (by decide)
  exact ⟨h.1, h.2.2.2.1, h.2.2.2.2⟩

/-! ## Tier/status defaulting (C5) -/

theorem lookup_append_single_ne {β : Type} (ext : List (GoStr × β)) (k key : GoStr)
    (v : β) (h : (k == key) = false) :
    List.lookup k (ext ++ [(key, v)]) = List.lookup k ext := by
  induction ext with
  | nil => simp [List.lookup_cons, h]
  | cons p ps ih =>
    rcases p with ⟨k', v'⟩
    rw [List.cons_append, List.lookup_cons, List.lookup_cons, ih]

theorem lookup_tier_addCommon (ext : ExtMap) (e : RegistryEntry) :
    List.lookup "tier".data (addCommonExtensions ext e) =
      List.lookup "tier".data ext := by
  unfold addCommonExtensions
  repeat' split
  all_goals repeat rw [lookup_append_single_ne _ _ _ _ (by decide)]
  all_goals rfl

theorem lookup_tier_addImage (ext : ExtMap) (e : RegistryEntry) :
    List.lookup "tier".data (addImageSpecificExtensions ext e) =
      List.lookup "tier".data ext := by
  unfold addImageSpecificExtensions
  cases e.imageMetadata with
  | none => rfl
  | some m =>
    repeat' split
    all_goals repeat rw [lookup_append_single_ne _ _ _ _ (by decide)]
    all_goals rfl

theorem lookup_tier_addRemote (ext : ExtMap) (e : RegistryEntry) :
    List.lookup "tier".data (addRemoteSpecificExtensions ext e) =
      List.lookup "tier".data ext := by
  unfold addRemoteSpecificExtensions
  cases e.remoteServerMetadata with
  | none => rfl
  | some m =>
    repeat' split
    all_goals repeat rw [lookup_append_single_ne _ _ _ _ (by decide)]
    all_goals rfl

/-- With an empty resolved tier, no `tier` key is ever written into the
publisher extension map. -/
theorem lookup_tier_none (e : RegistryEntry) (hte : e.getTier = []) :
    List.lookup "tier".data (createToolHiveExtensions e) = none := by
  unfold createToolHiveExtensions
  rw [hte]
  simp only [ne_eq, not_true_eq_false, not_false_eq_true, if_false, ite_false,
    List.cons_ne_self, eq_self_iff_true, not_true, if_true]
  rw [lookup_tier_addCommon]
  by_cases hi : e.IsImage
  · rw [if_pos hi, lookup_tier_addImage]
    split <;> rfl
  · rw [if_neg hi]
    by_cases hr : e.IsRemote
    · rw [if_pos hr, lookup_tier_addRemote]
      split <;> rfl
    · rw [if_neg hr]
      split <;> rfl

/-- Image metadata with no declared tier or status. -/
def metaC5 : ImageMetadata :=
  { name := "srv".data, description := "d".data, transport := "stdio".data,
    tier := [], status := [], tools := none, tags := none,
    image := "img".data, envVars := none, args := none, repositoryURL := [],
    permissions := none, provenance := none, metadata := none }

/-- Remote metadata with no declared tier or status. -/
def remoteC5 : RemoteServerMetadata :=
  { name := "r".data, description := [], transport := "sse".data,
    tier := [], status := [], tools := none, tags := none,
    url := "https://r".data, repositoryURL := [], headers := none,
    oauthConfig := none, envVars := none, customMetadata := none,
    metadata := none }

/-- An image entry with no declared tier or status. -/
def entryC5 : RegistryEntry :=
  { imageMetadata := some metaC5, remoteServerMetadata := none,
    examples := [], license := [] }

/-- C5 counterexample: for a loaded entry with empty tier and status, the
claim says the standards server record's vendor-extension block carries tier
'Community'.  The loader never applies the tier default
(`SetDefaults` is uncalled), and `createToolHiveExtensions` only writes a
`tier` key when the entry's tier is non-empty, so the extension block of
this entry carries no tier at all. -/
theorem tierDefaultNotInStandardsExtensions :
    entryC5.getTier = [] ∧ entryC5.getStatus = [] ∧
    List.lookup "tier".data (createToolHiveExtensions entryC5) = none := by
  exact ⟨by decide, by decide, by decide⟩

/-- C5 as amended: for entries with empty tier and status fields, the native
catalog records resolve tier to `Community` and status to `Active` (both
image and remote variants), and the standards server record's status
resolves to `active`; but the standards vendor-extension block omits the
`tier` key entirely rather than carrying `Community`. -/
theorem tierStatusDefaults (mi : ImageMetadata) (mr : RemoteServerMetadata)
    (e : RegistryEntry)
    (hti : mi.tier = []) (hsi : mi.status = [])
    (htr : mr.tier = []) (hsr : mr.status = [])
    (hte : e.getTier = []) (hse : e.getStatus = []) :
    (processImageMetadata mi).1.tier = "Community".data ∧
    (processImageMetadata mi).1.status = "Active".data ∧
    (processRemoteMetadata mr).tier = "Community".data ∧
    (processRemoteMetadata mr).status = "Active".data ∧
    convertStatus e.getStatus = MCPStatus.active ∧
    List.lookup "tier".data (createToolHiveExtensions e) = none := by
  refine ⟨?_, ?_, ?_, ?_, ?_, lookup_tier_none e hte⟩
  · simp [processImageMetadata, hti]
  · simp [processImageMetadata, hsi]
  · simp [processRemoteMetadata, htr]
  · simp [processRemoteMetadata, hsr]
  · rw [hse]; rfl

/-- C5 witness: the amended theorem applied to concrete default-free
metadata and entry. -/
theorem tierStatusDefaults_witness :
    (processImageMetadata metaC5).1.tier = "Community".data ∧
    (processImageMetadata metaC5).1.status = "Active".data ∧
    (processRemoteMetadata remoteC5).tier = "Community".data ∧
    (processRemoteMetadata remoteC5).status = "Active".data ∧
    convertStatus entryC5.getStatus = MCPStatus.active ∧
    List.lookup "tier".data (createToolHiveExtensions entryC5) = none :=
  tierStatusDefaults metaC5 remoteC5 entryC5 rfl rfl rfl rfl
    (by decide) (by decide)
